import Mathlib

/-!
Shallow embedding of `server.js` from the kittenclicker repository: an
Express backend with an in-memory `Map` of user records, a JSON file for
persistence, a POST submission endpoint, an aggregate GET endpoint, and a
server-sent-events stream.  JavaScript runtime values that the handlers
inspect are embedded as `JVal`; JSON numbers are modelled as integers
(the claims only concern sums and equality of the fields involved).
-/

/-- A JavaScript runtime value as used by the server's handlers.
`undefined` models the JS value of that name (the result of reading an absent
property); objects are ordered field lists, as JS objects preserve
insertion order of string keys. -/
inductive JVal where
  | undefined : JVal
  | null : JVal
  | bool : Bool → JVal
  | num : Int → JVal
  | str : String → JVal
  | arr : List JVal → JVal
  | obj : List (String × JVal) → JVal

mutual

/-- Decidable structural equality on `JVal`, written by hand because
`deriving` does not handle the nested `List` occurrences. -/
def JVal.decEq : (a b : JVal) → Decidable (a = b)
  | .undefined, .undefined => .isTrue rfl
  | .null, .null => .isTrue rfl
  | .bool a, .bool b =>
      if h : a = b then .isTrue (h ▸ rfl) else .isFalse (fun e => h (JVal.bool.inj e))
  | .num a, .num b =>
      if h : a = b then .isTrue (h ▸ rfl) else .isFalse (fun e => h (JVal.num.inj e))
  | .str a, .str b =>
      if h : a = b then .isTrue (h ▸ rfl) else .isFalse (fun e => h (JVal.str.inj e))
  | .arr xs, .arr ys =>
      match JVal.decEqArr xs ys with
      | .isTrue h => .isTrue (h ▸ rfl)
      | .isFalse h => .isFalse (fun e => h (JVal.arr.inj e))
  | .obj xs, .obj ys =>
      match JVal.decEqObj xs ys with
      | .isTrue h => .isTrue (h ▸ rfl)
      | .isFalse h => .isFalse (fun e => h (JVal.obj.inj e))
  | .undefined, .null => .isFalse (fun e => JVal.noConfusion e)
  | .undefined, .bool _ => .isFalse (fun e => JVal.noConfusion e)
  | .undefined, .num _ => .isFalse (fun e => JVal.noConfusion e)
  | .undefined, .str _ => .isFalse (fun e => JVal.noConfusion e)
  | .undefined, .arr _ => .isFalse (fun e => JVal.noConfusion e)
  | .undefined, .obj _ => .isFalse (fun e => JVal.noConfusion e)
  | .null, .undefined => .isFalse (fun e => JVal.noConfusion e)
  | .null, .bool _ => .isFalse (fun e => JVal.noConfusion e)
  | .null, .num _ => .isFalse (fun e => JVal.noConfusion e)
  | .null, .str _ => .isFalse (fun e => JVal.noConfusion e)
  | .null, .arr _ => .isFalse (fun e => JVal.noConfusion e)
  | .null, .obj _ => .isFalse (fun e => JVal.noConfusion e)
  | .bool _, .undefined => .isFalse (fun e => JVal.noConfusion e)
  | .bool _, .null => .isFalse (fun e => JVal.noConfusion e)
  | .bool _, .num _ => .isFalse (fun e => JVal.noConfusion e)
  | .bool _, .str _ => .isFalse (fun e => JVal.noConfusion e)
  | .bool _, .arr _ => .isFalse (fun e => JVal.noConfusion e)
  | .bool _, .obj _ => .isFalse (fun e => JVal.noConfusion e)
  | .num _, .undefined => .isFalse (fun e => JVal.noConfusion e)
  | .num _, .null => .isFalse (fun e => JVal.noConfusion e)
  | .num _, .bool _ => .isFalse (fun e => JVal.noConfusion e)
  | .num _, .str _ => .isFalse (fun e => JVal.noConfusion e)
  | .num _, .arr _ => .isFalse (fun e => JVal.noConfusion e)
  | .num _, .obj _ => .isFalse (fun e => JVal.noConfusion e)
  | .str _, .undefined => .isFalse (fun e => JVal.noConfusion e)
  | .str _, .null => .isFalse (fun e => JVal.noConfusion e)
  | .str _, .bool _ => .isFalse (fun e => JVal.noConfusion e)
  | .str _, .num _ => .isFalse (fun e => JVal.noConfusion e)
  | .str _, .arr _ => .isFalse (fun e => JVal.noConfusion e)
  | .str _, .obj _ => .isFalse (fun e => JVal.noConfusion e)
  | .arr _, .undefined => .isFalse (fun e => JVal.noConfusion e)
  | .arr _, .null => .isFalse (fun e => JVal.noConfusion e)
  | .arr _, .bool _ => .isFalse (fun e => JVal.noConfusion e)
  | .arr _, .num _ => .isFalse (fun e => JVal.noConfusion e)
  | .arr _, .str _ => .isFalse (fun e => JVal.noConfusion e)
  | .arr _, .obj _ => .isFalse (fun e => JVal.noConfusion e)
  | .obj _, .undefined => .isFalse (fun e => JVal.noConfusion e)
  | .obj _, .null => .isFalse (fun e => JVal.noConfusion e)
  | .obj _, .bool _ => .isFalse (fun e => JVal.noConfusion e)
  | .obj _, .num _ => .isFalse (fun e => JVal.noConfusion e)
  | .obj _, .str _ => .isFalse (fun e => JVal.noConfusion e)
  | .obj _, .arr _ => .isFalse (fun e => JVal.noConfusion e)

/-- Decidable equality of lists of `JVal` (array elements). -/
def JVal.decEqArr : (xs ys : List JVal) → Decidable (xs = ys)
  | [], [] => .isTrue rfl
  | [], _ :: _ => .isFalse (fun e => List.noConfusion e)
  | _ :: _, [] => .isFalse (fun e => List.noConfusion e)
  | x :: xs, y :: ys =>
      match JVal.decEq x y with
      | .isFalse h => .isFalse (fun e => h (List.cons.inj e).1)
      | .isTrue h1 =>
          match JVal.decEqArr xs ys with
          | .isTrue h2 => .isTrue (by rw [h1, h2])
          | .isFalse h2 => .isFalse (fun e => h2 (List.cons.inj e).2)

/-- Decidable equality of field lists (object fields). -/
def JVal.decEqObj : (xs ys : List (String × JVal)) → Decidable (xs = ys)
  | [], [] => .isTrue rfl
  | [], _ :: _ => .isFalse (fun e => List.noConfusion e)
  | _ :: _, [] => .isFalse (fun e => List.noConfusion e)
  | (k, x) :: xs, (l, y) :: ys =>
      if hk : k = l then
          match JVal.decEq x y with
          | .isFalse h => .isFalse (fun e => h (congrArg Prod.snd (List.cons.inj e).1))
          | .isTrue hx =>
              match JVal.decEqObj xs ys with
              | .isTrue h2 => .isTrue (by rw [hk, hx, h2])
              | .isFalse h2 => .isFalse (fun e => h2 (List.cons.inj e).2)
      else .isFalse (fun e => hk (congrArg Prod.fst (List.cons.inj e).1))

end

instance : DecidableEq JVal := JVal.decEq

/-- JavaScript truthiness of a value (`!v` is `¬ truthy v`). -/
def truthy : JVal → Bool
  | .undefined => false
  | .null => false
  | .bool b => b
  | .num n => n ≠ 0
  | .str s => s ≠ ""
  | .arr _ => true
  | .obj _ => true

/-- JavaScript `typeof` on the embedded values. -/
def typeOf : JVal → String
  | .undefined => "undefined"
  | .null => "object"
  | .bool _ => "boolean"
  | .num _ => "number"
  | .str _ => "string"
  | .arr _ => "object"
  | .obj _ => "object"

/-- Read field `k` of an object's field list; absent fields read as
`undefined`, mirroring JS property access on a plain object. -/
def objGet : List (String × JVal) → String → JVal
  | [], _ => .undefined
  | (j, v) :: rest, k => if j = k then v else objGet rest k

/-- Whether a field list has a field named `k`. -/
def hasField : List (String × JVal) → String → Bool
  | [], _ => false
  | (j, _) :: rest, k => j = k || hasField rest k

/-- Assign field `k := v` on an object's field list: JS property
assignment updates an existing key in place (keeping its position) and
otherwise appends the new key at the end. -/
def objSet : List (String × JVal) → String → JVal → List (String × JVal)
  | [], k, v => [(k, v)]
  | (j, w) :: rest, k, v => if j = k then (k, v) :: rest else (j, w) :: objSet rest k v

/-- Object spread `{...base, ...other}` restricted to what the server
does: assign each field of `other` onto `base` in order. -/
def spreadOnto (base : List (String × JVal)) : List (String × JVal) → List (String × JVal)
  | [] => base
  | (k, v) :: rest => spreadOnto (objSet base k v) rest

/-- Property read `v.k` on an arbitrary value: objects look the field
up, everything else yields `undefined`.  (In JS a read on `null` or
`undefined` throws; the store's records written by the POST handler are
always objects, so the handlers never hit that case.) -/
def getProp (v : JVal) (k : String) : JVal :=
  match v with
  | .obj fs => objGet fs k
  | _ => .undefined

/-- The integer content of a numeric value (`0` for non-numbers; the
handlers only apply it under a `typeof === 'number'` guard). -/
def numOf : JVal → Int
  | .num n => n
  | _ => 0

/-- The server's in-memory `userData` `Map`, as an ordered association
list: JS `Map` preserves insertion order and `set` replaces the value of
an existing key in place. -/
abbrev Store := List (JVal × JVal)

/-- `userData.set k v`: replace the value at an existing key (keeping
its position) or append a new entry. -/
def mapSet : Store → JVal → JVal → Store
  | [], k, v => [(k, v)]
  | (j, w) :: rest, k, v => if j = k then (k, v) :: rest else (j, w) :: mapSet rest k v

/-- `userData.get k` (used only in the specification of the theorems;
the server reads the map via iteration). -/
def mapGet : Store → JVal → Option JVal
  | [], _ => none
  | (j, w) :: rest, k => if j = k then some w else mapGet rest k

/-- Number of entries of the store whose key is `k`. -/
def countKey : Store → JVal → Nat
  | [], _ => 0
  | (j, _) :: rest, k => (if j = k then 1 else 0) + countKey rest k

/-!
### The POST /userlist handler

```js
const { userId, playerCount, ...otherData } = req.body;
if (!userId || typeof userId !== 'string') {
  return res.status(400).json({ error: 'Missing or invalid userId' });
}
userData.set(userId, {
  playerCount: typeof playerCount === 'number' ? playerCount : 0,
  lastUpdated: Date.now(),
  ...otherData
});
await saveUserData();
res.json({ success: true, message: 'Data saved successfully' });
```
`saveUserData` wraps its own body in `try/catch` and logs, so a
stringify or write failure never escapes it; the handler's `catch`
(status 500) is reachable only by exceptions raised outside it.
-/

/-- Outcome of `saveUserData`: on success the file now holds the
serialized entry list; on failure the error is logged inside
`saveUserData`'s own `try/catch` and the function returns normally. -/
inductive SaveResult where
  | wrote : Store → SaveResult
  | failedLogged : SaveResult
deriving DecidableEq

/-- `saveUserData()`: `JSON.stringify([...userData.entries()], ...)`
then `fs.writeFile`, the whole body inside `try { ... } catch (error)
{ console.error(...) }`.  `writeFails` models whether the write throws;
either way the function returns (it never propagates an exception). -/
def saveUserData (writeFails : Bool) (store : Store) : SaveResult :=
  if writeFails then .failedLogged else .wrote store

/-- What the POST /userlist handler produced: the HTTP status, whether
the body was the `{success:true}` acknowledgment, the store left in
memory, and the result of `saveUserData` (`none` when it was not
called). -/
structure PostResult where
  status : Nat
  success : Bool
  store : Store
  saveResult : Option SaveResult
deriving DecidableEq

/-- The rest pattern `...otherData` of
`const { userId, playerCount, ...otherData } = req.body`: every field
of the body except `userId` and `playerCount`. -/
def otherDataOf : List (String × JVal) → List (String × JVal)
  | [] => []
  | (k, v) :: rest =>
      if k = "userId" ∨ k = "playerCount" then otherDataOf rest
      else (k, v) :: otherDataOf rest

/-- The record object the handler stores:
`{ playerCount: typeof playerCount === 'number' ? playerCount : 0,
   lastUpdated: Date.now(), ...otherData }`, with `now` standing for
`Date.now()` at the moment of the write. -/
def mkRecord (now : Int) (body : List (String × JVal)) : JVal :=
  let playerCount := objGet body "playerCount"
  .obj (spreadOnto
    [("playerCount", if typeOf playerCount = "number" then playerCount else .num 0),
     ("lastUpdated", .num now)]
    (otherDataOf body))

/-- The POST /userlist handler.  `now` is `Date.now()` at the write,
`writeFails` whether the file write inside `saveUserData` throws,
`body` the parsed JSON request body (an object's field list, as
produced by `express.json()`), `store` the in-memory `userData` map. -/
def postUserlist (now : Int) (writeFails : Bool) (body : List (String × JVal))
    (store : Store) : PostResult :=
  let userId := objGet body "userId"
  if ¬ truthy userId ∨ typeOf userId ≠ "string" then
    { status := 400, success := false, store := store, saveResult := none }
  else
    let store2 := mapSet store userId (mkRecord now body)
    { status := 200, success := true, store := store2,
      saveResult := some (saveUserData writeFails store2) }

/-!
### The GET /player-count handler and the SSE `sendCounts`

Both run the same loop:
```js
let current = 0; let total = 0;
userData.forEach(user => {
  if (user.playerCount && typeof user.playerCount === 'number') {
    current += user.playerCount;
    total += user.playerCount;
  }
});
```
-/

/-- The accumulation loop over the store, threading `(current, total)`.
`Map.forEach` visits entries in insertion order. -/
def sendCountsFold : Store → Int × Int → Int × Int
  | [], acc => acc
  | (_, user) :: rest, (cur, tot) =>
      let pc := getProp user "playerCount"
      if truthy pc ∧ typeOf pc = "number" then
        sendCountsFold rest (cur + numOf pc, tot + numOf pc)
      else
        sendCountsFold rest (cur, tot)

/-- The `(current, total)` pair computed by GET /player-count and by
each SSE `sendCounts` call. -/
def sendCounts (store : Store) : Int × Int :=
  sendCountsFold store (0, 0)

/-- The spec's description of the aggregate, stated independently of
the code: the sum of `playerCount` over all records whose `playerCount`
field is a number. -/
def specAggregate : Store → Int
  | [] => 0
  | (_, user) :: rest =>
      (if typeOf (getProp user "playerCount") = "number"
       then numOf (getProp user "playerCount") else 0) + specAggregate rest

/-!
### Persistence: `saveUserData` serialization and `loadUserData`

```js
async function loadUserData() {
  try {
    const data = await fs.readFile(USER_DATA_FILE, 'utf8');
    const parsed = JSON.parse(data);
    userData.clear();
    parsed.forEach(([id, user]) => userData.set(id, user));
    ...
  } catch (error) { console.log('No existing user data file found, starting fresh'); }
}
```
A read failure or a `JSON.parse` throw happens before `userData.clear()`,
so the map is left exactly as it was.  Only after a successful parse is
the map cleared and refilled.
-/

/-- What the file system and parser yield to `loadUserData`:
`readError` models a missing/unreadable file (`fs.readFile` rejects),
`parseError` a `JSON.parse` throw, `parsed v` a successfully parsed
JSON value. -/
inductive LoadInput where
  | readError : LoadInput
  | parseError : LoadInput
  | parsed : JVal → LoadInput

/-- Array destructuring `[id, user] = e` of one parsed element: arrays
destructure positionally (missing positions read as `undefined`),
strings destructure into their first code points, anything else is not
iterable and throws a `TypeError`. -/
def destructure2 : JVal → Option (JVal × JVal)
  | .arr xs => some (xs.getD 0 .undefined, xs.getD 1 .undefined)
  | .str s =>
      match s.data with
      | [] => some (.undefined, .undefined)
      | [c] => some (.str (String.mk [c]), .undefined)
      | c :: d :: _ => some (.str (String.mk [c]), .str (String.mk [d]))
  | _ => none

/-- `parsed.forEach(([id, user]) => userData.set(id, user))`: set each
entry in order; an element that fails to destructure throws, aborting
the loop with the entries set so far (the throw is caught by
`loadUserData`'s `catch`). -/
def setEntries (m : Store) : List JVal → Store
  | [] => m
  | e :: rest =>
      match destructure2 e with
      | some (k, v) => setEntries (mapSet m k v) rest
      | none => m

/-- `loadUserData()`: on a read or parse failure the map `m0` is
untouched (the failure happens before `userData.clear()`); on a parsed
array the map is cleared and refilled entry by entry; on a parsed
non-array the map is cleared and then `parsed.forEach` throws (caught),
leaving it empty. -/
def loadUserData (input : LoadInput) (m0 : Store) : Store :=
  match input with
  | .readError => m0
  | .parseError => m0
  | .parsed v =>
      match v with
      | .arr es => setEntries [] es
      | _ => []

/-- The JSON value `saveUserData` writes to the file:
`JSON.stringify([...userData.entries()], null, 2)` serializes the map
as an array of two-element `[key, value]` arrays in insertion order. -/
def serializeStore (m : Store) : JVal :=
  .arr (m.map fun p => .arr [p.1, p.2])

/-!
### The GET /player-count-stream handler

```js
sendCounts();                                  // initial, synchronous
const interval = setInterval(sendCounts, 5000);
req.on('close', () => { clearInterval(interval); });
```
Discrete-time model: after the synchronous initial emission the
connection reacts to timer ticks (one per elapsed interval) and to the
client-close event, which runs `clearInterval` so that no later tick
fires.  The store is held fixed over the run; each emission carries the
aggregate `sendCounts` reads at that moment.
-/

/-- The `setInterval` period of the stream, in milliseconds. -/
def streamIntervalMs : Nat := 5000

/-- External events a stream connection sees after connect: a timer
tick (every `streamIntervalMs` ms while the interval is armed) or the
client closing the connection. -/
inductive ConnEvent where
  | tick : ConnEvent
  | clientClose : ConnEvent
deriving DecidableEq

/-- Emissions produced by the event loop after the initial send:
`armed` is whether the interval is still registered.  A tick fires
`sendCounts` only while armed; `close` runs `clearInterval`, after
which the timer never fires again. -/
def streamEmitsFrom (store : Store) : List ConnEvent → Bool → List (Int × Int)
  | [], _ => []
  | .tick :: rest, armed =>
      if armed then sendCounts store :: streamEmitsFrom store rest armed
      else streamEmitsFrom store rest armed
  | .clientClose :: rest, _ => streamEmitsFrom store rest false

/-- All events written to one GET /player-count-stream connection: the
handler calls `sendCounts()` synchronously on connect, then arms the
interval and reacts to `evs`. -/
def streamEmits (store : Store) (evs : List ConnEvent) : List (Int × Int) :=
  sendCounts store :: streamEmitsFrom store evs true

/-!
### Helper lemmas about the embedded operations
-/

/-- Whether the store has an entry with key `k`. -/
def hasKey : Store → JVal → Bool
  | [], _ => false
  | (j, _) :: rest, k => j = k || hasKey rest k

/-- The `Map` representation invariant: all keys distinct. -/
def keysNodup : Store → Bool
  | [] => true
  | (k, _) :: rest => !hasKey rest k && keysNodup rest

theorem objGet_objSet_ne (fs : List (String × JVal)) (j k : String) (v : JVal)
    (h : j ≠ k) : objGet (objSet fs j v) k = objGet fs k := by
  induction fs with
  | nil => simp [objSet, objGet, h]
  | cons p rest ih =>
    obtain ⟨l, w⟩ := p
    by_cases hl : l = j
    · subst hl; simp [objSet, objGet, h]
    · by_cases hk : l = k
      · simp [objSet, hl, objGet, hk, Ne.symm h]
      · simp [objSet, hl, objGet, hk, ih]

theorem objGet_spreadOnto (other : List (String × JVal)) :
    ∀ base k, hasField other k = false →
      objGet (spreadOnto base other) k = objGet base k := by
  induction other with
  | nil => intro base k _; rfl
  | cons p rest ih =>
    obtain ⟨l, w⟩ := p
    intro base k h
    simp [hasField] at h
    rw [spreadOnto, ih _ _ (by simp [h.2]), objGet_objSet_ne _ _ _ _ h.1]

theorem hasField_otherDataOf_removed (body : List (String × JVal)) (k : String)
    (hk : k = "userId" ∨ k = "playerCount") :
    hasField (otherDataOf body) k = false := by
  induction body with
  | nil => rfl
  | cons p rest ih =>
    obtain ⟨l, w⟩ := p
    by_cases hl : l = "userId" ∨ l = "playerCount"
    · simp [otherDataOf, hl, ih]
    · have hlk : l ≠ k := by
        rcases hk with h | h <;> rcases hl with _ <;> intro he <;> subst he <;>
          simp_all
      simp [otherDataOf, hl, hasField, hlk, ih]

theorem hasField_otherDataOf_le (body : List (String × JVal)) (k : String)
    (h : hasField body k = false) : hasField (otherDataOf body) k = false := by
  induction body with
  | nil => rfl
  | cons p rest ih =>
    obtain ⟨l, w⟩ := p
    simp [hasField] at h
    by_cases hl : l = "userId" ∨ l = "playerCount"
    · simp [otherDataOf, hl, ih h.2]
    · simp [otherDataOf, hl, hasField, h.1, ih h.2]

theorem mapGet_mapSet (m : Store) (k v : JVal) :
    mapGet (mapSet m k v) k = some v := by
  induction m with
  | nil => simp [mapSet, mapGet]
  | cons p rest ih =>
    obtain ⟨j, w⟩ := p
    by_cases hj : j = k
    · simp [mapSet, hj, mapGet]
    · simp [mapSet, hj, mapGet, ih]

theorem countKey_mapSet (m : Store) (k v : JVal) :
    countKey (mapSet m k v) k =
      if countKey m k = 0 then 1 else countKey m k := by
  induction m with
  | nil => simp [mapSet, countKey]
  | cons p rest ih =>
    obtain ⟨j, w⟩ := p
    by_cases hj : j = k
    · simp [mapSet, hj, countKey]
    · simp only [mapSet, if_neg hj, countKey, ih]
      by_cases h0 : countKey rest k = 0 <;> simp [hj, h0]

theorem mapSet_eq_append (m : Store) (k v : JVal) (h : hasKey m k = false) :
    mapSet m k v = m ++ [(k, v)] := by
  induction m with
  | nil => rfl
  | cons p rest ih =>
    obtain ⟨j, w⟩ := p
    simp [hasKey] at h
    simp [mapSet, h.1, ih h.2]

theorem hasKey_append (m1 m2 : Store) (k : JVal) :
    hasKey (m1 ++ m2) k = (hasKey m1 k || hasKey m2 k) := by
  induction m1 with
  | nil => simp [hasKey]
  | cons p rest ih =>
    obtain ⟨j, w⟩ := p
    simp [hasKey, ih, Bool.or_assoc]

theorem key_ne_of_hasKey_false (m : Store) (k : JVal) (h : hasKey m k = false) :
    ∀ p ∈ m, p.1 ≠ k := by
  induction m with
  | nil => intro p hp; cases hp
  | cons q rest ih =>
    obtain ⟨j, w⟩ := q
    simp [hasKey] at h
    intro p hp
    rcases List.mem_cons.mp hp with hp | hp
    · subst hp; exact h.1
    · exact ih h.2 p hp

theorem setEntries_serialize (m : Store) :
    ∀ acc, keysNodup m = true → (∀ p ∈ m, hasKey acc p.1 = false) →
      setEntries acc (m.map fun p => JVal.arr [p.1, p.2]) = acc ++ m := by
  induction m with
  | nil => intro acc _ _; simp [setEntries]
  | cons p rest ih =>
    obtain ⟨k, v⟩ := p
    intro acc hnd hdisj
    simp [keysNodup] at hnd
    have hstep : setEntries acc (((k, v) :: rest).map fun p => JVal.arr [p.1, p.2]) =
        setEntries (mapSet acc k v) (rest.map fun p => JVal.arr [p.1, p.2]) := rfl
    rw [hstep, mapSet_eq_append acc k v (hdisj (k, v) (by simp))]
    rw [ih (acc ++ [(k, v)]) hnd.2 ?_]
    · simp
    · intro p hp
      rw [hasKey_append]
      have h1 : hasKey acc p.1 = false := hdisj p (by simp [hp])
      have h2 : p.1 ≠ k := key_ne_of_hasKey_false rest k (by simp [hnd.1]) p hp
      simp [h1, hasKey, Ne.symm h2]

theorem sendCountsFold_eq (m : Store) :
    ∀ cur tot : Int, sendCountsFold m (cur, tot) =
      (cur + specAggregate m, tot + specAggregate m) := by
  induction m with
  | nil => intro cur tot; simp [sendCountsFold, specAggregate]
  | cons p rest ih =>
    obtain ⟨k, user⟩ := p
    intro cur tot
    simp only [sendCountsFold, specAggregate]
    by_cases h : truthy (getProp user "playerCount") = true ∧
        typeOf (getProp user "playerCount") = "number"
    · rw [if_pos (by exact_mod_cast h), ih, if_pos h.2]
      simp [add_assoc]
    · rw [if_neg (by exact_mod_cast h), ih]
      by_cases h2 : typeOf (getProp user "playerCount") = "number"
      · have h1 : truthy (getProp user "playerCount") = false := by
          rcases Bool.eq_false_or_eq_true (truthy (getProp user "playerCount")) with hb | hb
          · exact absurd ⟨hb, h2⟩ h
          · exact hb
        cases hpc : getProp user "playerCount" with
        | num n =>
          have : n = 0 := by
            by_contra hn
            rw [hpc] at h1
            simp [truthy, hn] at h1
          subst this
          simp [if_pos h2, hpc, numOf]
        | undefined => rw [hpc] at h2; simp [typeOf] at h2
        | null => rw [hpc] at h2; simp [typeOf] at h2
        | bool b => rw [hpc] at h2; simp [typeOf] at h2
        | str s => rw [hpc] at h2; simp [typeOf] at h2
        | arr xs => rw [hpc] at h2; simp [typeOf] at h2
        | obj fs => rw [hpc] at h2; simp [typeOf] at h2
      · simp [if_neg h2]

theorem streamEmitsFrom_disarmed (store : Store) (evs : List ConnEvent) :
    streamEmitsFrom store evs false = [] := by
  induction evs with
  | nil => rfl
  | cons e rest ih =>
    cases e with
    | tick => simp [streamEmitsFrom, ih]
    | clientClose => simp [streamEmitsFrom, ih]

/-- Reading `lastUpdated` from the literal the handler builds before
the spread of the client's extra fields. -/
theorem objGet_handlerBase_lastUpdated (pc : JVal) (now : Int) :
    objGet [("playerCount", pc), ("lastUpdated", JVal.num now)] "lastUpdated"
      = JVal.num now := by
  simp [objGet]

/-- Reading `playerCount` from the literal the handler builds before
the spread of the client's extra fields. -/
theorem objGet_handlerBase_playerCount (pc : JVal) (now : Int) :
    objGet [("playerCount", pc), ("lastUpdated", JVal.num now)] "playerCount"
      = pc := by
  simp [objGet]

/-!
### The claims
-/

/-- Claim C3: for every store state, the value computed by the
GET /player-count handler (and by each SSE `sendCounts` call) is the
sum of `playerCount` over all records whose `playerCount` field is a
number, returned as both `current` and `total`; in particular, after
submitting `{userId:"a",playerCount:3}` and `{userId:"b",playerCount:5}`
into an empty store the handler returns `{current:8,total:8}`.  (The
code's loop skips falsy values, which among numbers excludes exactly
`0`; skipping `0` does not change the sum.) -/
theorem aggregate_sums_numeric_playerCounts :
    (∀ store : Store, sendCounts store = (specAggregate store, specAggregate store)) ∧
    sendCounts (postUserlist 20 false [("userId", .str "b"), ("playerCount", .num 5)]
      ((postUserlist 10 false [("userId", .str "a"), ("playerCount", .num 3)] []).store)).store
      = (8, 8) := by
  constructor
  · intro store
    have h := sendCountsFold_eq store 0 0
    simpa [sendCounts] using h
  · decide

/-- Claim C5: a POST /userlist whose body has a missing or non-string
`userId` is answered 400, the store is left unchanged, and
`saveUserData` is never called. -/
theorem invalid_userId_rejected (now : Int) (wf : Bool)
    (body : List (String × JVal)) (store : Store)
    (h : objGet body "userId" = .undefined ∨ typeOf (objGet body "userId") ≠ "string") :
    postUserlist now wf body store =
      { status := 400, success := false, store := store, saveResult := none } := by
  have hcond : ¬ truthy (objGet body "userId") ∨
      typeOf (objGet body "userId") ≠ "string" := by
    rcases h with h | h
    · left; rw [h]; simp [truthy]
    · right; exact h
  simp only [postUserlist]
  rw [if_pos hcond]

/-- Witness for C5 at the concrete empty body (missing `userId`). -/
theorem invalid_userId_rejected_witness :
    postUserlist 0 false [] [] =
      { status := 400, success := false, store := [], saveResult := none } :=
  invalid_userId_rejected 0 false [] [] (Or.inl rfl)

/-- Claim C10: a POST /userlist whose body carries `userId: ""` is
rejected with 400 and the store is unchanged: the empty string is a
string, but the handler's `!userId` truthiness test rejects it. -/
theorem empty_userId_rejected (now : Int) (wf : Bool)
    (body : List (String × JVal)) (store : Store)
    (h : objGet body "userId" = .str "") :
    postUserlist now wf body store =
      { status := 400, success := false, store := store, saveResult := none } := by
  simp only [postUserlist]
  rw [if_pos]
  left
  rw [h]
  simp [truthy]

/-- Witness for C10 at the concrete body `{userId: ""}`. -/
theorem empty_userId_rejected_witness :
    postUserlist 0 false [("userId", JVal.str "")] [] =
      { status := 400, success := false, store := [], saveResult := none } :=
  empty_userId_rejected 0 false [("userId", JVal.str "")] [] rfl

/-- Claim C7: a missing file (read error) or a `JSON.parse` failure in
`loadUserData` happens before `userData.clear()`, so the mapping is
left exactly as it was; at the only call site (process start) the
mapping is empty beforehand, hence it stays empty — no partial load. -/
theorem load_failure_leaves_mapping (m0 : Store) :
    loadUserData .readError m0 = m0 ∧ loadUserData .parseError m0 = m0 ∧
    loadUserData .readError [] = [] ∧ loadUserData .parseError [] = [] :=
  ⟨rfl, rfl, rfl, rfl⟩

/-- Claim C9: a GET /player-count-stream connection emits the current
aggregate synchronously on connect (before any timer event), emits it
again on every tick of its own interval timer (period
`streamIntervalMs` = 5000 ms) while connected, and after the client
disconnects `clearInterval` stops the timer, so no event after the
close is ever emitted. -/
theorem stream_initial_then_ticks_until_close (store : Store) (evs : List ConnEvent) :
    streamEmits store evs =
      sendCounts store ::
        (evs.takeWhile fun e => e = ConnEvent.tick).map (fun _ => sendCounts store) ∧
    streamIntervalMs = 5000 := by
  refine ⟨?_, rfl⟩
  unfold streamEmits
  congr 1
  induction evs with
  | nil => rfl
  | cons e rest ih =>
    cases e with
    | tick => simp [streamEmitsFrom, List.takeWhile, ih]
    | clientClose => simp [streamEmitsFrom, List.takeWhile, streamEmitsFrom_disarmed]

/-- Counterexample to claim C1 as stated: submitting
`{userId:"u", lastUpdated:123}` when the server clock reads `999`
stores `lastUpdated: 123` — the client's value, not the server's.  The
rest-spread `...otherData` comes after `lastUpdated: Date.now()` in the
object literal, so a client-supplied `lastUpdated` extra field
overrides the server timestamp. -/
theorem client_lastUpdated_overrides_cex :
    getProp ((mapGet (postUserlist 999 false
        [("userId", JVal.str "u"), ("lastUpdated", JVal.num 123)] []).store
        (JVal.str "u")).getD JVal.undefined) "lastUpdated" = JVal.num 123 ∧
    JVal.num 123 ≠ JVal.num 999 := by decide

/-- Claim C1 (amended): for every accepted submission whose body does
NOT carry a `lastUpdated` key among its extra fields, the stored
record's `lastUpdated` equals the server's timestamp at the time of the
write; when the client supplies one, the spread order lets the client
value win. -/
theorem lastUpdated_server_set_when_client_omits (now : Int) (wf : Bool)
    (body : List (String × JVal)) (store : Store)
    (hv : truthy (objGet body "userId") ∧ typeOf (objGet body "userId") = "string")
    (hno : hasField body "lastUpdated" = false) :
    mapGet (postUserlist now wf body store).store (objGet body "userId")
      = some (mkRecord now body) ∧
    getProp (mkRecord now body) "lastUpdated" = JVal.num now := by
  have hcond : ¬(¬ truthy (objGet body "userId") ∨
      typeOf (objGet body "userId") ≠ "string") := by
    push_neg
    exact ⟨hv.1, hv.2⟩
  constructor
  · simp only [postUserlist]
    rw [if_neg hcond]
    exact mapGet_mapSet store _ _
  · show objGet (spreadOnto
        [("playerCount", if typeOf (objGet body "playerCount") = "number"
            then objGet body "playerCount" else JVal.num 0),
         ("lastUpdated", JVal.num now)] (otherDataOf body)) "lastUpdated" = JVal.num now
    rw [objGet_spreadOnto _ _ _ (hasField_otherDataOf_le body _ hno)]
    exact objGet_handlerBase_lastUpdated _ now

/-- Witness for the amended C1 at a concrete body without a
`lastUpdated` field. -/
theorem lastUpdated_server_set_when_client_omits_witness :
    mapGet (postUserlist 7 false [("userId", JVal.str "c")] []).store
      (objGet [("userId", JVal.str "c")] "userId")
      = some (mkRecord 7 [("userId", JVal.str "c")]) ∧
    getProp (mkRecord 7 [("userId", JVal.str "c")]) "lastUpdated" = JVal.num 7 :=
  lastUpdated_server_set_when_client_omits 7 false [("userId", JVal.str "c")] []
    (by decide) rfl

/-- Counterexample to claim C2 as stated: with the file write failing,
the submission `{userId:"x"}` is still answered 200 `{success:true}` —
not 500 — because `saveUserData`'s own `try/catch` swallows the write
exception (`saveResult = failedLogged` records that the write failed
and was merely logged). -/
theorem write_failure_acknowledged_cex :
    (postUserlist 0 true [("userId", JVal.str "x")] []).status = 200 ∧
    (postUserlist 0 true [("userId", JVal.str "x")] []).success = true ∧
    (postUserlist 0 true [("userId", JVal.str "x")] []).saveResult
      = some SaveResult.failedLogged ∧
    (200 : Nat) ≠ 500 := by decide

/-- Claim C2 (amended): when the file write inside `saveUserData`
fails, the exception is caught and logged inside `saveUserData` itself,
so for every accepted submission the handler still responds 200
`{success:true}`; the handler's 500 branch is not reached by write
failures. -/
theorem write_failure_caught_still_success (now : Int)
    (body : List (String × JVal)) (store : Store)
    (hv : truthy (objGet body "userId") ∧ typeOf (objGet body "userId") = "string") :
    (postUserlist now true body store).status = 200 ∧
    (postUserlist now true body store).success = true ∧
    (postUserlist now true body store).saveResult = some SaveResult.failedLogged := by
  have hcond : ¬(¬ truthy (objGet body "userId") ∨
      typeOf (objGet body "userId") ≠ "string") := by
    push_neg
    exact ⟨hv.1, hv.2⟩
  simp only [postUserlist]
  rw [if_neg hcond]
  exact ⟨rfl, rfl, rfl⟩

/-- Witness for the amended C2 at a concrete valid body. -/
theorem write_failure_caught_still_success_witness :
    (postUserlist 3 true [("userId", JVal.str "y")] []).status = 200 ∧
    (postUserlist 3 true [("userId", JVal.str "y")] []).success = true ∧
    (postUserlist 3 true [("userId", JVal.str "y")] []).saveResult
      = some SaveResult.failedLogged :=
  write_failure_caught_still_success 3 [("userId", JVal.str "y")] [] (by decide)

/-- Claim C4: starting from a store respecting the `Map` invariant (at
most one entry per key), two successive accepted submissions with the
same `userId` leave exactly one record for that id, and that record is
`mkRecord` of the second submission's timestamp and body alone — a full
replacement, with no merge with the first record. -/
theorem second_submission_fully_replaces (store : Store) (n1 n2 : Int)
    (w1 w2 : Bool) (b1 b2 : List (String × JVal)) (u : JVal)
    (hu1 : objGet b1 "userId" = u) (hu2 : objGet b2 "userId" = u)
    (hv : truthy u ∧ typeOf u = "string")
    (hcount : countKey store u ≤ 1) :
    countKey (postUserlist n2 w2 b2 (postUserlist n1 w1 b1 store).store).store u = 1 ∧
    mapGet (postUserlist n2 w2 b2 (postUserlist n1 w1 b1 store).store).store u
      = some (mkRecord n2 b2) := by
  have hcond1 : ¬(¬ truthy (objGet b1 "userId") ∨
      typeOf (objGet b1 "userId") ≠ "string") := by
    rw [hu1]; push_neg; exact ⟨hv.1, hv.2⟩
  have hcond2 : ¬(¬ truthy (objGet b2 "userId") ∨
      typeOf (objGet b2 "userId") ≠ "string") := by
    rw [hu2]; push_neg; exact ⟨hv.1, hv.2⟩
  have hs1 : (postUserlist n1 w1 b1 store).store = mapSet store u (mkRecord n1 b1) := by
    simp only [postUserlist]
    rw [if_neg hcond1, hu1]
  have hs2 : ∀ s : Store, (postUserlist n2 w2 b2 s).store = mapSet s u (mkRecord n2 b2) := by
    intro s
    simp only [postUserlist]
    rw [if_neg hcond2, hu2]
  rw [hs1, hs2]
  refine ⟨?_, mapGet_mapSet _ _ _⟩
  rw [countKey_mapSet, countKey_mapSet]
  by_cases h0 : countKey store u = 0
  · simp [h0]
  · have h1 : countKey store u = 1 :=
      Nat.le_antisymm hcount (Nat.one_le_iff_ne_zero.mpr h0)
    simp [h0, h1]

/-- Witness for C4: the same `userId` submitted twice into an empty
store. -/
theorem second_submission_fully_replaces_witness :
    countKey (postUserlist 2 false [("userId", JVal.str "d"), ("playerCount", JVal.num 9)]
      (postUserlist 1 false [("userId", JVal.str "d"), ("playerCount", JVal.num 4)]
        []).store).store (JVal.str "d") = 1 ∧
    mapGet (postUserlist 2 false [("userId", JVal.str "d"), ("playerCount", JVal.num 9)]
      (postUserlist 1 false [("userId", JVal.str "d"), ("playerCount", JVal.num 4)]
        []).store).store (JVal.str "d")
      = some (mkRecord 2 [("userId", JVal.str "d"), ("playerCount", JVal.num 9)]) :=
  second_submission_fully_replaces [] 1 2 false false
    [("userId", JVal.str "d"), ("playerCount", JVal.num 4)]
    [("userId", JVal.str "d"), ("playerCount", JVal.num 9)]
    (JVal.str "d") rfl rfl (by decide) (by decide)

/-- Counterexample to claim C6 as stated: submitting
`{userId:"n", playerCount:-5}` stores `playerCount: -5`, a negative
number — the handler only checks `typeof playerCount === 'number'` and
never enforces non-negativity (nor integrality). -/
theorem negative_playerCount_stored_cex :
    getProp ((mapGet (postUserlist 0 false
        [("userId", JVal.str "n"), ("playerCount", JVal.num (-5))] []).store
        (JVal.str "n")).getD JVal.undefined) "playerCount" = JVal.num (-5) ∧
    (-5 : Int) < 0 := by decide

/-- Claim C6 (amended): for every accepted submission, the stored
`playerCount` equals the submitted `playerCount` whenever that value is
a number (with no sign or integrality restriction), and defaults to
`0` when the field is absent or non-numeric. -/
theorem stored_playerCount_submitted_or_zero (now : Int) (wf : Bool)
    (body : List (String × JVal)) (store : Store)
    (hv : truthy (objGet body "userId") ∧ typeOf (objGet body "userId") = "string") :
    mapGet (postUserlist now wf body store).store (objGet body "userId")
      = some (mkRecord now body) ∧
    getProp (mkRecord now body) "playerCount" =
      (if typeOf (objGet body "playerCount") = "number"
       then objGet body "playerCount" else JVal.num 0) := by
  have hcond : ¬(¬ truthy (objGet body "userId") ∨
      typeOf (objGet body "userId") ≠ "string") := by
    push_neg
    exact ⟨hv.1, hv.2⟩
  constructor
  · simp only [postUserlist]
    rw [if_neg hcond]
    exact mapGet_mapSet store _ _
  · show objGet (spreadOnto
        [("playerCount", if typeOf (objGet body "playerCount") = "number"
            then objGet body "playerCount" else JVal.num 0),
         ("lastUpdated", JVal.num now)] (otherDataOf body)) "playerCount" =
        (if typeOf (objGet body "playerCount") = "number"
         then objGet body "playerCount" else JVal.num 0)
    rw [objGet_spreadOnto _ _ _ (hasField_otherDataOf_removed body _ (Or.inr rfl))]
    exact objGet_handlerBase_playerCount _ now

/-- Witness for the amended C6 at a concrete body with a non-numeric
`playerCount`. -/
theorem stored_playerCount_submitted_or_zero_witness :
    mapGet (postUserlist 4 false [("userId", JVal.str "z"), ("playerCount", JVal.str "9")]
      []).store (objGet [("userId", JVal.str "z"), ("playerCount", JVal.str "9")] "userId")
      = some (mkRecord 4 [("userId", JVal.str "z"), ("playerCount", JVal.str "9")]) ∧
    getProp (mkRecord 4 [("userId", JVal.str "z"), ("playerCount", JVal.str "9")])
        "playerCount" =
      (if typeOf (objGet [("userId", JVal.str "z"), ("playerCount", JVal.str "9")]
          "playerCount") = "number"
       then objGet [("userId", JVal.str "z"), ("playerCount", JVal.str "9")] "playerCount"
       else JVal.num 0) :=
  stored_playerCount_submitted_or_zero 4 false
    [("userId", JVal.str "z"), ("playerCount", JVal.str "9")] [] (by decide)

/-- Claim C8: saving a store (one whose keys are distinct, as every JS
`Map` guarantees) and loading the resulting file into a fresh process
reconstructs exactly the same mapping, so the aggregate after the
restart equals the aggregate before it. -/
theorem save_load_roundtrip_aggregate (m m0 : Store) (h : keysNodup m = true) :
    loadUserData (.parsed (serializeStore m)) m0 = m ∧
    sendCounts (loadUserData (.parsed (serializeStore m)) m0) = sendCounts m := by
  have hload : loadUserData (.parsed (serializeStore m)) m0 = m := by
    show setEntries [] (m.map fun p => JVal.arr [p.1, p.2]) = m
    rw [setEntries_serialize m [] h (fun p _ => rfl)]
    simp
  exact ⟨hload, by rw [hload]⟩

/-- Witness for C8 at a concrete two-record store. -/
theorem save_load_roundtrip_aggregate_witness :
    loadUserData (.parsed (serializeStore
        [(JVal.str "a", JVal.obj [("playerCount", JVal.num 3)]),
         (JVal.str "b", JVal.obj [("playerCount", JVal.num 5)])])) []
      = [(JVal.str "a", JVal.obj [("playerCount", JVal.num 3)]),
         (JVal.str "b", JVal.obj [("playerCount", JVal.num 5)])] ∧
    sendCounts (loadUserData (.parsed (serializeStore
        [(JVal.str "a", JVal.obj [("playerCount", JVal.num 3)]),
         (JVal.str "b", JVal.obj [("playerCount", JVal.num 5)])])) [])
      = sendCounts [(JVal.str "a", JVal.obj [("playerCount", JVal.num 3)]),
         (JVal.str "b", JVal.obj [("playerCount", JVal.num 5)])] :=
  save_load_roundtrip_aggregate
    [(JVal.str "a", JVal.obj [("playerCount", JVal.num 3)]),
     (JVal.str "b", JVal.obj [("playerCount", JVal.num 5)])] [] (by decide)
